import Mathlib

/-!
Shallow embedding of the Excel-import / duplicate-resolution pipeline of the
fastapi_mysql_project inventory frontend (the `InventoryComponent` class),
together with a spec-modelled import orchestrator for the commit loop (the
backend handler of the `start_upload` command is not among the sources; only
the frontend that talks to it is).

Strings are modelled as `String` / `List Char`; the staged row and the
component state mirror the TypeScript class fields that the import pipeline
touches.  JS numbers holding row ids, sizes and counters are modelled as
`Int` (the component only adds and subtracts integers on them).
-/

namespace Inventory

/-! ### JS string primitives used by the component -/

/-- Embedding of JS `toLowerCase()` on one character (basic-latin case
mapping, the range the component relies on). -/
def jsCharToLower (c : Char) : Char :=
  if 65 ≤ c.toNat ∧ c.toNat ≤ 90 then Char.ofNat (c.toNat + 32) else c

/-- Embedding of JS `toLowerCase()` on a string. -/
def jsToLowerCase (s : List Char) : List Char := s.map jsCharToLower

/-- Embedding of JS `trim()`: strip whitespace from both ends. -/
def jsTrim (s : List Char) : List Char :=
  ((s.dropWhile Char.isWhitespace).reverse.dropWhile Char.isWhitespace).reverse

/-- The duplicate key computed by `addItem`
(`name.toLowerCase().trim()`): lowercase first, then trim. -/
def nameKey (s : List Char) : List Char := jsTrim (jsToLowerCase s)

/-- The duplicate test of `addItem` between a candidate name and one
existing item name (`item.name.toLowerCase().trim() === nameToCheck`). -/
def namesMatch (a b : List Char) : Bool := nameKey a == nameKey b

/-- The key in the words of the spec: names are compared "after trimming
surrounding whitespace and lowercasing" (trim first, then lowercase).
Stated from the spec for comparison with `nameKey`, which is taken from the
code. -/
def specNameKey (s : List Char) : List Char := jsToLowerCase (jsTrim s)

theorem toNat_charOfNat_valid {n : Nat} (h : n.isValidChar) :
    (Char.ofNat n).toNat = n := by
  simp [Char.ofNat, h, Char.ofNatAux, Char.toNat, UInt32.toNat]

theorem char_eq_iff_toNat (a b : Char) : a = b ↔ a.toNat = b.toNat := by
  constructor
  · intro h; rw [h]
  · intro h
    apply Char.eq_of_val_eq
    exact UInt32.ext h

theorem isWhitespace_eq_toNat (c : Char) :
    c.isWhitespace = (decide (c.toNat = 32) || decide (c.toNat = 9) ||
      decide (c.toNat = 13) || decide (c.toNat = 10)) := by
  have h32 : (' ').toNat = 32 := by decide
  have h9 : ('\t').toNat = 9 := by decide
  have h13 : ('\r').toNat = 13 := by decide
  have h10 : ('\n').toNat = 10 := by decide
  show (decide (c = ' ') || decide (c = '\t') || decide (c = '\r') ||
    decide (c = '\n')) = _
  rw [decide_eq_decide.mpr ((char_eq_iff_toNat c ' ').trans (by rw [h32])),
    decide_eq_decide.mpr ((char_eq_iff_toNat c '\t').trans (by rw [h9])),
    decide_eq_decide.mpr ((char_eq_iff_toNat c '\r').trans (by rw [h13])),
    decide_eq_decide.mpr ((char_eq_iff_toNat c '\n').trans (by rw [h10]))]

/-- Lowercasing a character does not change whether it is whitespace. -/
theorem isWhitespace_jsCharToLower (c : Char) :
    (jsCharToLower c).isWhitespace = c.isWhitespace := by
  unfold jsCharToLower
  split
  · rename_i h
    have hv : (Char.ofNat (c.toNat + 32)).toNat = c.toNat + 32 :=
      toNat_charOfNat_valid (Or.inl (by omega))
    have hL : (Char.ofNat (c.toNat + 32)).isWhitespace = false := by
      rw [isWhitespace_eq_toNat, hv]
      simp only [Bool.or_eq_false_iff, decide_eq_false_iff_not]
      omega
    have hR : c.isWhitespace = false := by
      rw [isWhitespace_eq_toNat]
      simp only [Bool.or_eq_false_iff, decide_eq_false_iff_not]
      omega
    rw [hL, hR]
  · rfl

theorem dropWhile_ws_map_lower (l : List Char) :
    (l.map jsCharToLower).dropWhile Char.isWhitespace =
      (l.dropWhile Char.isWhitespace).map jsCharToLower := by
  induction l with
  | nil => rfl
  | cons a l ih =>
    simp only [List.map_cons, List.dropWhile_cons, isWhitespace_jsCharToLower]
    rcases h : a.isWhitespace with _ | _
    · simp [h]
    · simp [h, ih]

/-- Lowercasing and trimming commute. -/
theorem jsTrim_jsToLowerCase (l : List Char) :
    jsTrim (jsToLowerCase l) = jsToLowerCase (jsTrim l) := by
  unfold jsTrim jsToLowerCase
  rw [dropWhile_ws_map_lower, ← List.map_reverse, dropWhile_ws_map_lower,
    ← List.map_reverse]

/-- C8: two names are treated as the same duplicate key by the code exactly
when they agree after trimming surrounding whitespace and lowercasing, and
in particular "Widget " and "widget" are the same key. -/
theorem namesMatch_iff_specNameKey :
    (∀ a b : List Char, namesMatch a b = true ↔ specNameKey a = specNameKey b)
    ∧ namesMatch (String.data "Widget ") (String.data "widget") = true := by
  constructor
  · intro a b
    unfold namesMatch nameKey specNameKey
    rw [jsTrim_jsToLowerCase, jsTrim_jsToLowerCase]
    exact beq_iff_eq ..
  · decide

/-! ### Data model of the component -/

/-- One staged spreadsheet row of the preview (`PreviewRow` interface):
`temp_id`, the four field values, the classification status string
(`new` / `duplicate` / `error`, absent before classification), and the
optional back-reference to the matched catalog entry. -/
structure PreviewRow where
  temp_id : Int
  name : String
  description : String
  price : Int
  quantity : Int
  status : Option String
  existing_id : Option Int
deriving DecidableEq, Repr

/-- Sheet metadata returned by workbook analysis (`SheetInfo` interface). -/
structure SheetInfo where
  name : String
  rows : Int
  columns : List String
  is_valid : Bool
  errors : List String
deriving DecidableEq, Repr

/-- A selected file as the validation code sees it: its name and byte size. -/
structure FileInfo where
  name : String
  size : Int
deriving DecidableEq, Repr

/-- The aggregate counters shown by the client (`uploadStats`). -/
structure UploadStatsClient where
  created : Int
  updated : Int
  skipped : Int
  errors : Int
deriving DecidableEq, Repr

/-- The fields of `InventoryComponent` that the import pipeline reads and
writes.  The TS field `editingRow` holds a reference to a row inside
`previewData`; it is modelled as the index of that row
(`editingRowIdx`). -/
structure InventoryState where
  selectedFile : Option FileInfo := none
  fileName : String := ""
  fileSize : Int := 0
  sheets : List SheetInfo := []
  selectedSheet : String := ""
  showSheetSelector : Bool := false
  showPreview : Bool := false
  previewData : List PreviewRow := []
  originalPreviewData : List PreviewRow := []
  totalRows : Int := 0
  columns : List String := []
  hasDuplicates : Bool := false
  duplicatesCount : Int := 0
  newProductsCount : Int := 0
  showDuplicatesModal : Bool := false
  selectedDuplicateAction : String := "skip"
  editingRowIdx : Option Nat := none
  editingRowCopy : Option PreviewRow := none
  isUploading : Bool := false
  uploadProgress : Int := 0
  uploadMessage : String := ""
  uploadStats : UploadStatsClient := ⟨0, 0, 0, 0⟩
  errors : List String := []
  generalError : String := ""
deriving DecidableEq, Repr

/-! ### File validation (`onFileSelected`) -/

/-- Embedding of `file.name.substring(file.name.lastIndexOf(.))`: the suffix
starting at the last dot, or the whole name when there is no dot
(`lastIndexOf` returns -1 and `substring` clamps it to 0). -/
def fileExtensionOf (name : List Char) : List Char :=
  if name.contains '.' then
    '.' :: (name.reverse.takeWhile (fun c => c ≠ '.')).reverse
  else name

/-- The accepted extensions (`validExtensions` in `onFileSelected`). -/
def validExtensions : List (List Char) := [String.data ".xls", String.data ".xlsx"]

/-- The extension test of `onFileSelected`:
`validExtensions.includes(fileExtension)` on the lowercased extension. -/
def isValidExcelExtension (name : List Char) : Bool :=
  validExtensions.contains (jsToLowerCase (fileExtensionOf name))

/-- Embedding of `showError(message)`: store the message in `generalError` (the 5-second
auto-clear timer is presentation and is not modelled). -/
def showError (s : InventoryState) (message : String) : InventoryState :=
  { s with generalError := message }

/-- The size-limit message (the interpolated megabyte figure of the source
template literal is elided; the claims only use that an error is shown). -/
def sizeLimitMessage : String :=
  "El archivo es demasiado grande. El limite es 10 MB."

/-- Embedding of `onFileSelected`: validate extension and size; on success record the
file and request analysis.  The second component is true exactly when
`analyzeFile()` is invoked. -/
def onFileSelected (s : InventoryState) (file : FileInfo) :
    InventoryState × Bool :=
  if isValidExcelExtension file.name.data = false then
    (showError s "Por favor selecciona un archivo Excel valido (.xls o .xlsx)",
      false)
  else if file.size > 10 * 1024 * 1024 then
    (showError s sizeLimitMessage, false)
  else
    ({ s with
        selectedFile := some file
        fileName := file.name
        fileSize := file.size
        errors := []
        generalError := "" }, true)

/-! ### Preview loading (`loadPreviewWithDuplicates`, success branch) -/

/-- The payload of a successful duplicate-validation response. -/
structure PreviewResponse where
  preview_rows : List PreviewRow
  total_rows : Int
  columns : List String
  has_duplicates : Bool
  duplicates_found : Int
  new_products : Int
deriving DecidableEq, Repr

/-- The metadata column names filtered out of the displayed columns. -/
def metaColumns : List String :=
  ["temp_id", "status", "status_label", "existing_id", "existing_data", "errors"]

/-- The success branch of `loadPreviewWithDuplicates`: install the preview,
keep a deep-copy snapshot in `originalPreviewData` (the JSON round-trip of
the source produces an equal value), store the duplicate summary, and open
the duplicates modal when duplicates were found. -/
def loadPreviewSuccess (s : InventoryState) (resp : PreviewResponse) :
    InventoryState :=
  { s with
    previewData := resp.preview_rows
    originalPreviewData := resp.preview_rows
    totalRows := resp.total_rows
    columns := resp.columns.filter (fun col => !(metaColumns.contains col))
    hasDuplicates := resp.has_duplicates
    duplicatesCount := resp.duplicates_found
    newProductsCount := resp.new_products
    showPreview := true
    showSheetSelector := false
    showDuplicatesModal :=
      if resp.has_duplicates then true else s.showDuplicatesModal }

/-! ### Row editing and deletion -/

/-- Replace the element at one position, leaving the rest unchanged (the
effect of mutating the object referenced by `editingRow`). -/
def modifyAt {α : Type} (f : α → α) : Nat → List α → List α
  | _, [] => []
  | 0, a :: as => f a :: as
  | n + 1, a :: as => a :: modifyAt f n as

/-- Embedding of `startEdit(row)`: remember the row under edit and take a shallow copy
of its fields (`editingRowCopy = { ...row }`). -/
def startEdit (s : InventoryState) (i : Nat) : InventoryState :=
  { s with editingRowIdx := some i, editingRowCopy := s.previewData[i]? }

/-- One two-way-binding mutation of the row under edit while the edit is
open (the template mutates the referenced row object in place). -/
def editField (s : InventoryState) (f : PreviewRow → PreviewRow) :
    InventoryState :=
  match s.editingRowIdx with
  | some i => { s with previewData := modifyAt f i s.previewData }
  | none => s

/-- A sequence of in-edit mutations. -/
def applyEdits (fs : List (PreviewRow → PreviewRow)) (s : InventoryState) :
    InventoryState :=
  fs.foldl editField s

/-- Embedding of `cancelEdit()`: copy the saved field values back into the referenced row
(`Object.assign(editingRow, editingRowCopy)`) and close the edit. -/
def cancelEdit (s : InventoryState) : InventoryState :=
  match s.editingRowIdx, s.editingRowCopy with
  | some i, some copy =>
      { s with
        previewData := s.previewData.set i copy
        editingRowIdx := none
        editingRowCopy := none }
  | _, _ => { s with editingRowIdx := none, editingRowCopy := none }

/-- Embedding of `saveEdit()`: close the edit, keeping the in-place mutations. -/
def saveEdit (s : InventoryState) : InventoryState :=
  { s with editingRowIdx := none, editingRowCopy := none }

/-- Embedding of `deleteRow(row)`: remove the first row with the same `temp_id`, decrement
the total, and adjust the duplicate/new counters from the status of the
passed row; clear `hasDuplicates` when the duplicate counter hits zero. -/
def deleteRow (s : InventoryState) (row : PreviewRow) : InventoryState :=
  match s.previewData.findIdx? (fun r => r.temp_id == row.temp_id) with
  | some i =>
      let spliced :=
        { s with
          previewData := s.previewData.eraseIdx i
          totalRows := s.totalRows - 1 }
      if row.status == some "duplicate" then
        let d := spliced.duplicatesCount - 1
        { spliced with
          duplicatesCount := d
          hasDuplicates := if d == 0 then false else spliced.hasDuplicates }
      else if row.status == some "new" then
        { spliced with newProductsCount := spliced.newProductsCount - 1 }
      else spliced
  | none => s

/-! ### Upload confirmation and reset -/

/-- A JSON value, for the message put on the channel by `confirmUpload`. -/
inductive Json where
  | str : String → Json
  | num : Int → Json
  | jnull : Json
  | arr : List Json → Json
  | obj : List (String × Json) → Json

/-- The top-level keys of a JSON object. -/
def jsonKeys : Json → List String
  | Json.obj fields => fields.map Prod.fst
  | _ => []

/-- Serialization (`JSON.stringify`) of one staged row: its defined properties in
declaration order (absent optional properties are omitted). -/
def rowToJson (r : PreviewRow) : Json :=
  Json.obj
    ([("temp_id", Json.num r.temp_id), ("name", Json.str r.name),
      ("description", Json.str r.description), ("price", Json.num r.price),
      ("quantity", Json.num r.quantity)]
      ++ (match r.status with
          | some st => [("status", Json.str st)]
          | none => [])
      ++ (match r.existing_id with
          | some eid => [("existing_id", Json.num eid)]
          | none => []))

/-- The message `confirmUpload` serializes onto the channel:
`{ action: start_upload, rows: previewData, duplicate_action: selected }`. -/
def confirmUploadMessage (s : InventoryState) : Json :=
  Json.obj
    [("action", Json.str "start_upload"),
      ("rows", Json.arr (s.previewData.map rowToJson)),
      ("duplicate_action", Json.str s.selectedDuplicateAction)]

/-- Embedding of `confirmUpload()`: when the socket is open, reset the progress fields and
send exactly one message; otherwise show a connectivity error and send
nothing (the 1-second retry timer is not modelled).  The second component is
the list of messages sent. -/
def confirmUpload (s : InventoryState) (wsOpen : Bool) :
    InventoryState × List Json :=
  if wsOpen then
    ({ s with
        isUploading := true
        uploadProgress := 0
        uploadMessage := "Iniciando carga..."
        errors := []
        uploadStats := ⟨0, 0, 0, 0⟩ },
      [confirmUploadMessage s])
  else
    (showError s "No hay conexion con el servidor. Reintentando...", [])

/-- Embedding of `selectDuplicateAction(action)`. -/
def selectDuplicateAction (s : InventoryState) (action : String) :
    InventoryState :=
  { s with selectedDuplicateAction := action }

/-- Embedding of `resetUploadState()`: clear every upload-session field back to its
initial value. -/
def resetUploadState (s : InventoryState) : InventoryState :=
  { s with
    selectedFile := none
    fileName := ""
    fileSize := 0
    sheets := []
    selectedSheet := ""
    showSheetSelector := false
    showPreview := false
    previewData := []
    originalPreviewData := []
    totalRows := 0
    columns := []
    uploadProgress := 0
    uploadMessage := ""
    uploadStats := ⟨0, 0, 0, 0⟩
    errors := []
    generalError := ""
    isUploading := false
    hasDuplicates := false
    duplicatesCount := 0
    newProductsCount := 0
    showDuplicatesModal := false
    selectedDuplicateAction := "skip" }

/-! ### Import orchestrator, modelled from the spec

The backend that receives `start_upload` and applies rows to the catalog is
not among the sources; only the frontend that sends the command and renders
its progress events is.  The definitions below are modelled from the spec:
the per-row processing table of the Import Orchestrator (section 4.4), the
`DuplicateAction` enum, the terminal summary, and the partial-failure
policy (persistence failures and stale duplicate targets are counted as
row errors and processing continues). -/

/-- Modelled from the spec: the `DuplicateAction` enum
{skip, update, create_new}. -/
inductive DuplicateAction where
  | skip : DuplicateAction
  | update : DuplicateAction
  | create_new : DuplicateAction
deriving DecidableEq, Repr

/-- Modelled from the spec: one persistent catalog entry. -/
structure CatalogEntry where
  id : Int
  name : String
  description : String
  price : Int
  quantity : Int
deriving DecidableEq, Repr

/-- Modelled from the spec: the terminal aggregate
{created, updated, skipped, errorsCount} plus the accumulated row-level
error messages. -/
structure UploadSummary where
  created : Nat
  updated : Nat
  skipped : Nat
  errorsCount : Nat
  errorMessages : List String
deriving DecidableEq, Repr

/-- The empty summary a commit starts from. -/
def emptySummary : UploadSummary := ⟨0, 0, 0, 0, []⟩

/-- Modelled from the spec: the classification a staged row carries into the
commit (`status` is `new`, `duplicate` or `error`; anything else is treated
as `new`, the default classification). -/
inductive RowClass where
  | isNew : RowClass
  | isDup : RowClass
  | isErr : RowClass
deriving DecidableEq, Repr

/-- The classification read off a staged row. -/
def classOf (r : PreviewRow) : RowClass :=
  if r.status == some "error" then RowClass.isErr
  else if r.status == some "duplicate" then RowClass.isDup
  else RowClass.isNew

/-- A fresh id for a created entry: one past the largest id present. -/
def freshId (catalog : List CatalogEntry) : Int :=
  (catalog.foldl (fun m e => max m e.id) 0) + 1

/-- The catalog entry built from a staged row. -/
def entryOfRow (catalog : List CatalogEntry) (r : PreviewRow) : CatalogEntry :=
  ⟨freshId catalog, r.name, r.description, r.price, r.quantity⟩

/-- Modelled from the spec: attempt a catalog create; a persistence failure
(decided by the `writeFails` oracle) is counted under `errorsCount` with a
message and never aborts the batch. -/
def tryCreate (writeFails : PreviewRow → Bool) (catalog : List CatalogEntry)
    (acc : UploadSummary) (r : PreviewRow) :
    List CatalogEntry × UploadSummary :=
  if writeFails r then
    (catalog, { acc with
      errorsCount := acc.errorsCount + 1
      errorMessages := acc.errorMessages ++ ["PersistenceError"] })
  else
    (catalog ++ [entryOfRow catalog r],
      { acc with created := acc.created + 1 })

/-- Modelled from the spec: per-row processing of the Import Orchestrator
(section 4.4).  Exactly one of the four counters grows by one for every
processed row. -/
def processRow (writeFails : PreviewRow → Bool) (action : DuplicateAction)
    (catalog : List CatalogEntry) (acc : UploadSummary) (r : PreviewRow) :
    List CatalogEntry × UploadSummary :=
  match classOf r with
  | RowClass.isErr =>
      (catalog, { acc with
        errorsCount := acc.errorsCount + 1
        errorMessages := acc.errorMessages ++ ["RowCoercionError"] })
  | RowClass.isNew => tryCreate writeFails catalog acc r
  | RowClass.isDup =>
      match action with
      | DuplicateAction.skip =>
          (catalog, { acc with skipped := acc.skipped + 1 })
      | DuplicateAction.create_new => tryCreate writeFails catalog acc r
      | DuplicateAction.update =>
          match r.existing_id with
          | none =>
              (catalog, { acc with
                errorsCount := acc.errorsCount + 1
                errorMessages :=
                  acc.errorMessages ++ ["DuplicateTargetMissingError"] })
          | some eid =>
              if catalog.any (fun e => e.id == eid) then
                if writeFails r then
                  (catalog, { acc with
                    errorsCount := acc.errorsCount + 1
                    errorMessages := acc.errorMessages ++ ["PersistenceError"] })
                else
                  (catalog.map (fun e =>
                    if e.id == eid then
                      { e with
                        description := r.description
                        price := r.price
                        quantity := r.quantity }
                    else e),
                    { acc with updated := acc.updated + 1 })
              else
                (catalog, { acc with
                  errorsCount := acc.errorsCount + 1
                  errorMessages :=
                    acc.errorMessages ++ ["DuplicateTargetMissingError"] })

/-- Modelled from the spec: a whole commit, processing the received staged
rows one at a time in order (the client sends them in `temp_id` order:
`temp_id` is assigned 1..N in row order and never reassigned). -/
def runCommit (writeFails : PreviewRow → Bool) (action : DuplicateAction)
    (catalog : List CatalogEntry) (rows : List PreviewRow) :
    List CatalogEntry × UploadSummary :=
  rows.foldl
    (fun st r => processRow writeFails action st.1 st.2 r)
    (catalog, emptySummary)

/-- The total of the four counters of a summary. -/
def summaryTotal (acc : UploadSummary) : Nat :=
  acc.created + acc.updated + acc.skipped + acc.errorsCount

theorem processRow_summaryTotal (writeFails : PreviewRow → Bool)
    (action : DuplicateAction) (catalog : List CatalogEntry)
    (acc : UploadSummary) (r : PreviewRow) :
    summaryTotal (processRow writeFails action catalog acc r).2 =
      summaryTotal acc + 1 := by
  unfold processRow tryCreate summaryTotal
  rcases classOf r with _ | _ | _ <;> rcases action with _ | _ | _ <;>
    rcases r.existing_id with _ | _ <;> simp
  all_goals (repeat' split)
  all_goals (try simp)
  all_goals omega

theorem foldl_processRow_summaryTotal (writeFails : PreviewRow → Bool)
    (action : DuplicateAction) (rows : List PreviewRow) :
    ∀ (catalog : List CatalogEntry) (acc : UploadSummary),
    summaryTotal
      (rows.foldl (fun st r => processRow writeFails action st.1 st.2 r)
        (catalog, acc)).2 = summaryTotal acc + rows.length := by
  induction rows with
  | nil => intro catalog acc; simp [summaryTotal]
  | cons r rows ih =>
      intro catalog acc
      simp only [List.foldl_cons, List.length_cons]
      rw [ih]
      have h := processRow_summaryTotal writeFails action catalog acc r
      omega

/-! ### List helper lemmas -/

theorem modifyAt_set_same {α : Type} (f : α → α) (n : Nat) (l : List α)
    (x : α) : (modifyAt f n l).set n x = l.set n x := by
  induction l generalizing n with
  | nil => cases n <;> rfl
  | cons a as ih =>
      cases n with
      | zero => rfl
      | succ m => simp [modifyAt, List.set, ih]

theorem list_set_of_getElem {α : Type} (l : List α) (i : Nat) (a : α)
    (h : l[i]? = some a) : l.set i a = l := by
  induction l generalizing i with
  | nil => simp at h
  | cons b bs ih =>
      cases i with
      | zero =>
          simp at h
          simp [h]
      | succ m =>
          simp at h
          simp [List.set, ih m h]

theorem modifyAt_map_eq {α β : Type} (g : α → β) (f : α → α)
    (hf : ∀ a, g (f a) = g a) (n : Nat) (l : List α) :
    (modifyAt f n l).map g = l.map g := by
  induction l generalizing n with
  | nil => cases n <;> rfl
  | cons a as ih =>
      cases n with
      | zero => simp [modifyAt, hf]
      | succ m => simp [modifyAt, ih]

/-- While an edit transaction is open, in-edit mutations keep the edited
index and the saved copy, and touch no row other than the edited one. -/
theorem applyEdits_inv (fs : List (PreviewRow → PreviewRow)) :
    ∀ (t : InventoryState) (i : Nat), t.editingRowIdx = some i →
      (applyEdits fs t).editingRowIdx = some i
      ∧ (applyEdits fs t).editingRowCopy = t.editingRowCopy
      ∧ ∀ x, (applyEdits fs t).previewData.set i x = t.previewData.set i x := by
  induction fs with
  | nil => intro t i ht; exact ⟨ht, rfl, fun x => rfl⟩
  | cons f fs ih =>
      intro t i ht
      have h1 : (editField t f).editingRowIdx = some i := by
        simp [editField, ht]
      obtain ⟨ha, hb, hc⟩ := ih (editField t f) i h1
      have hun : applyEdits (f :: fs) t = applyEdits fs (editField t f) := rfl
      rw [hun]
      refine ⟨ha, ?_, ?_⟩
      · rw [hb]; simp [editField, ht]
      · intro x
        rw [hc x]
        simp [editField, ht, modifyAt_set_same]

/-! ### The claims -/

/-- C1: for every commit, the terminal summary satisfies
created + updated + skipped + errorsCount = number of rows processed in
that commit; the commit processes exactly the staged rows handed to it, so
rows removed from the preview beforehand are not counted. -/
theorem commit_summary_counts_processed (writeFails : PreviewRow → Bool)
    (action : DuplicateAction) (catalog : List CatalogEntry)
    (rows : List PreviewRow) :
    summaryTotal (runCommit writeFails action catalog rows).2 = rows.length := by
  unfold runCommit
  rw [foldl_processRow_summaryTotal]
  simp [emptySummary, summaryTotal]

/-- The check the claim asks of a row after a name edit, in the words of the
spec: a row must be classified `duplicate` exactly when its name matches a
catalog name under normalized-name matching. -/
def specStatusReflectsMatching (catalogNames : List String) (r : PreviewRow) :
    Bool :=
  (r.status == some "duplicate")
    == catalogNames.any (fun n => namesMatch n.data r.name.data)

def c2Row : PreviewRow := ⟨1, "Nut", "", 2, 5, some "new", none⟩

def c2State : InventoryState :=
  { previewData := [c2Row], totalRows := 1, newProductsCount := 1 }

def c2After : InventoryState :=
  saveEdit (editField (startEdit c2State 0) (fun r => { r with name := "Bolt" }))

/-- C2 counterexample: with the catalog snapshot containing "Bolt", editing
the name of the staged row from "Nut" to "Bolt" and saving leaves the row
classified `new` even though its name now matches "Bolt" - the status is
not recomputed when the name changes, so it no longer reflects
normalized-name matching. -/
theorem saveEdit_no_reclassify_cex :
    c2After.previewData.map (fun r => r.name) = ["Bolt"]
    ∧ c2After.previewData.map (fun r => r.status) = [some "new"]
    ∧ c2After.previewData.map (specStatusReflectsMatching ["Bolt"]) = [false] := by
  decide

/-- C2 amended: a saved edit never recomputes classification - after any
edit that leaves the status field itself untouched (a name-only edit in
particular), every row keeps its pre-edit classification status. -/
theorem saveEdit_keeps_status (s : InventoryState) (i : Nat)
    (f : PreviewRow → PreviewRow) (hf : ∀ r, (f r).status = r.status) :
    (saveEdit (editField (startEdit s i) f)).previewData.map (fun r => r.status)
      = s.previewData.map (fun r => r.status) := by
  simp only [saveEdit, editField, startEdit]
  exact modifyAt_map_eq (fun r => r.status) f hf i s.previewData

theorem saveEdit_keeps_status_witness :
    (saveEdit (editField (startEdit c2State 0)
        (fun r => { r with name := "Bolt" }))).previewData.map (fun r => r.status)
      = c2State.previewData.map (fun r => r.status) :=
  saveEdit_keeps_status c2State 0 (fun r => { r with name := "Bolt" })
    (fun _ => rfl)

/-- C3: saveEdit commits the in-place edits (the staged rows after saving
are exactly the rows with the edit applied at the edited index) and changes
nothing else: rows (hence the status of each row, existing_id and temp_id),
totalRows, duplicate and new counters and hasDuplicates are untouched by
the save itself, and no row is left under edit. -/
theorem saveEdit_commits_and_frames (s : InventoryState) (i : Nat)
    (f : PreviewRow → PreviewRow) :
    (saveEdit (editField (startEdit s i) f)).previewData
        = modifyAt f i s.previewData
    ∧ (saveEdit (editField (startEdit s i) f)).previewData
        = (editField (startEdit s i) f).previewData
    ∧ (saveEdit (editField (startEdit s i) f)).totalRows = s.totalRows
    ∧ (saveEdit (editField (startEdit s i) f)).duplicatesCount
        = s.duplicatesCount
    ∧ (saveEdit (editField (startEdit s i) f)).newProductsCount
        = s.newProductsCount
    ∧ (saveEdit (editField (startEdit s i) f)).hasDuplicates = s.hasDuplicates
    ∧ (saveEdit (editField (startEdit s i) f)).editingRowIdx = none
    ∧ (saveEdit (editField (startEdit s i) f)).editingRowCopy = none := by
  refine ⟨rfl, rfl, rfl, rfl, rfl, rfl, rfl, rfl⟩

/-- C4: deleting a present row by its temp_id removes exactly that row,
decrements totalRows by one, adjusts the duplicate/new counter matching the
last-known status of the row by exactly one, and hasDuplicates flips to false
exactly when the duplicate counter reaches zero. -/
theorem deleteRow_spec (s : InventoryState) (row : PreviewRow) (i : Nat)
    (hfind : s.previewData.findIdx? (fun r => r.temp_id == row.temp_id)
      = some i)
    (hget : s.previewData[i]? = some row) :
    (deleteRow s row).previewData = s.previewData.eraseIdx i
    ∧ (deleteRow s row).previewData.length + 1 = s.previewData.length
    ∧ (deleteRow s row).totalRows = s.totalRows - 1
    ∧ (deleteRow s row).duplicatesCount =
        (if row.status = some "duplicate" then s.duplicatesCount - 1
         else s.duplicatesCount)
    ∧ (deleteRow s row).newProductsCount =
        (if row.status = some "new" then s.newProductsCount - 1
         else s.newProductsCount)
    ∧ (deleteRow s row).hasDuplicates =
        (if row.status = some "duplicate" ∧ s.duplicatesCount - 1 = 0
         then false else s.hasDuplicates) := by
  have hlen : i < s.previewData.length := (List.getElem?_eq_some.mp hget).1
  have herase : (s.previewData.eraseIdx i).length = s.previewData.length - 1 := by
    rw [List.length_eraseIdx]
    simp [hlen]
  unfold deleteRow
  rw [hfind]
  by_cases hdup : row.status = some "duplicate"
  · by_cases hzero : s.duplicatesCount - 1 = 0
    · simp [hdup, hzero, herase]
      omega
    · simp [hdup, hzero, herase]
      omega
  · by_cases hnew : row.status = some "new"
    · simp [hdup, hnew, herase]
      omega
    · simp [hdup, hnew, herase]
      omega

def c4RowDup : PreviewRow := ⟨1, "Bolt", "", 6, 10, some "duplicate", some 3⟩

def c4RowNew : PreviewRow := ⟨2, "Nut", "", 2, 5, some "new", none⟩

def c4State : InventoryState :=
  { previewData := [c4RowDup, c4RowNew], totalRows := 2, hasDuplicates := true,
    duplicatesCount := 1, newProductsCount := 1 }

theorem deleteRow_spec_witness :
    (deleteRow c4State c4RowDup).previewData
        = c4State.previewData.eraseIdx 0
    ∧ (deleteRow c4State c4RowDup).totalRows = c4State.totalRows - 1 := by
  have h := deleteRow_spec c4State c4RowDup 0 (by decide) (by decide)
  exact ⟨h.1, h.2.2.1⟩

def c5Row : PreviewRow := ⟨1, "Bolt", "", 6, 10, some "new", none⟩

def c5Resp : PreviewResponse := ⟨[c5Row], 1, ["name"], false, 0, 1⟩

def c5Loaded : InventoryState := loadPreviewSuccess {} c5Resp

def c5Reset : InventoryState :=
  resetUploadState (deleteRow c5Loaded c5Row)

/-- C5 counterexample: after loading a one-row preview (snapshot captured)
and deleting the row, the reset operation of the component yields an empty
staged-row set and zeroed counters instead of restoring the snapshot - it
clears the session (snapshot included) rather than restoring it. -/
theorem resetUploadState_cex :
    c5Loaded.originalPreviewData = [c5Row]
    ∧ c5Reset.previewData = []
    ∧ c5Reset.previewData ≠ c5Loaded.originalPreviewData
    ∧ c5Reset.totalRows = 0
    ∧ c5Reset.originalPreviewData = [] := by
  decide

/-- C5 amended: the component has no restore-to-snapshot operation; the
snapshot captured at preview load (originalPreviewData) is kept but never
read back, and resetUploadState discards the whole upload session - staged
rows and snapshot become empty, totalRows and both counters zero,
hasDuplicates false - independent of the snapshot contents. -/
theorem resetUploadState_clears (s : InventoryState) :
    (resetUploadState s).previewData = []
    ∧ (resetUploadState s).originalPreviewData = []
    ∧ (resetUploadState s).totalRows = 0
    ∧ (resetUploadState s).duplicatesCount = 0
    ∧ (resetUploadState s).newProductsCount = 0
    ∧ (resetUploadState s).hasDuplicates = false
    ∧ (resetUploadState s).selectedFile = none
    ∧ (resetUploadState s).sheets = [] := by
  refine ⟨rfl, rfl, rfl, rfl, rfl, rfl, rfl, rfl⟩

def c6State : InventoryState :=
  { previewData := [⟨1, "Bolt", "", 6, 10, some "duplicate", some 3⟩],
    selectedDuplicateAction := "update" }

/-- C6 counterexample: the message confirmUpload sends carries the
operator-chosen action under the snake_case key duplicate_action; no key
named duplicateAction is present. -/
theorem confirmUpload_key_cex :
    jsonKeys (confirmUploadMessage c6State)
      = ["action", "rows", "duplicate_action"]
    ∧ "duplicateAction" ∉ jsonKeys (confirmUploadMessage c6State) := by
  constructor
  · rfl
  · decide

/-- C6 amended: with the channel open, confirmUpload sends exactly one JSON
message of the form { action: start_upload, rows: the current staged-row
set, duplicate_action: d } where d is the currently selected duplicate
action (default skip, set by selectDuplicateAction); the key is the
snake_case duplicate_action. -/
theorem confirmUpload_message_spec (s : InventoryState) :
    (confirmUpload s true).2 = [confirmUploadMessage s]
    ∧ confirmUploadMessage s =
      Json.obj
        [("action", Json.str "start_upload"),
          ("rows", Json.arr (s.previewData.map rowToJson)),
          ("duplicate_action", Json.str s.selectedDuplicateAction)] :=
  ⟨rfl, rfl⟩

/-- C7: a selected file whose lowercased extension is not .xls/.xlsx, or
whose size exceeds 10 MiB, is rejected with an error before analysis is
requested and with every session field untouched; a valid file of exactly
10 MiB (or less) is accepted and analysis is requested. -/
theorem onFileSelected_validation (s : InventoryState) (file : FileInfo) :
    (isValidExcelExtension file.name.data = false
        ∨ file.size > 10 * 1024 * 1024 →
      (onFileSelected s file).2 = false
      ∧ (onFileSelected s file).1.selectedFile = s.selectedFile
      ∧ (onFileSelected s file).1.fileName = s.fileName
      ∧ (onFileSelected s file).1.fileSize = s.fileSize
      ∧ (onFileSelected s file).1.sheets = s.sheets
      ∧ (onFileSelected s file).1.previewData = s.previewData
      ∧ (onFileSelected s file).1.showPreview = s.showPreview
      ∧ (onFileSelected s file).1.generalError ≠ "")
    ∧ (isValidExcelExtension file.name.data = true
        ∧ file.size ≤ 10 * 1024 * 1024 →
      (onFileSelected s file).2 = true
      ∧ (onFileSelected s file).1.selectedFile = some file) := by
  constructor
  · intro h
    have hrej :
        onFileSelected s file =
          (showError s
            "Por favor selecciona un archivo Excel valido (.xls o .xlsx)",
            false)
        ∨ onFileSelected s file = (showError s sizeLimitMessage, false) := by
      unfold onFileSelected
      by_cases hext : isValidExcelExtension file.name.data = false
      · left; rw [if_pos hext]
      · right
        rw [if_neg hext]
        rcases h with h | h
        · exact absurd h hext
        · rw [if_pos h]
    rcases hrej with hr | hr <;> rw [hr] <;>
      exact ⟨rfl, rfl, rfl, rfl, rfl, rfl, rfl,
        by simp [showError, sizeLimitMessage]⟩
  · intro hac
    obtain ⟨hext, hsize⟩ := hac
    unfold onFileSelected
    rw [if_neg (by simp [hext]), if_neg (by omega)]
    exact ⟨rfl, rfl⟩

theorem onFileSelected_validation_witness :
    (onFileSelected {} ⟨"notas.txt", 100⟩).2 = false
    ∧ (onFileSelected {} ⟨"productos.XLSX", 10485760⟩).2 = true := by
  refine ⟨((onFileSelected_validation {} ⟨"notas.txt", 100⟩).1
    (Or.inl (by decide))).1,
    ((onFileSelected_validation {} ⟨"productos.XLSX", 10485760⟩).2
    ⟨by decide, by decide⟩).1⟩

/-- C9: starting an edit on a staged row, mutating its fields arbitrarily
while the edit is open, and cancelling restores the staged rows exactly
(every top-level field of the edited row byte-for-byte) and leaves no row
under edit. -/
theorem cancelEdit_restores (s : InventoryState) (i : Nat) (row : PreviewRow)
    (h : s.previewData[i]? = some row)
    (fs : List (PreviewRow → PreviewRow)) :
    (cancelEdit (applyEdits fs (startEdit s i))).previewData = s.previewData
    ∧ (cancelEdit (applyEdits fs (startEdit s i))).editingRowIdx = none
    ∧ (cancelEdit (applyEdits fs (startEdit s i))).editingRowCopy = none := by
  have hstart : (startEdit s i).editingRowIdx = some i := rfl
  obtain ⟨ha, hb, hc⟩ := applyEdits_inv fs (startEdit s i) i hstart
  have hcopy : (applyEdits fs (startEdit s i)).editingRowCopy = some row := by
    rw [hb]
    simp [startEdit, h]
  have hcan : cancelEdit (applyEdits fs (startEdit s i)) =
      { applyEdits fs (startEdit s i) with
        previewData := (applyEdits fs (startEdit s i)).previewData.set i row
        editingRowIdx := none
        editingRowCopy := none } := by
    unfold cancelEdit
    rw [ha, hcopy]
  rw [hcan]
  refine ⟨?_, rfl, rfl⟩
  show (applyEdits fs (startEdit s i)).previewData.set i row = s.previewData
  rw [hc row]
  show s.previewData.set i row = s.previewData
  exact list_set_of_getElem s.previewData i row h

def c9Row : PreviewRow := ⟨1, "Bolt", "desc", 6, 10, some "duplicate", some 3⟩

def c9State : InventoryState :=
  { previewData := [c9Row], totalRows := 1, hasDuplicates := true,
    duplicatesCount := 1 }

theorem cancelEdit_restores_witness :
    (cancelEdit (applyEdits [fun r => { r with name := "X", price := 0 }]
        (startEdit c9State 0))).previewData = c9State.previewData :=
  (cancelEdit_restores c9State 0 c9Row (by decide)
    [fun r => { r with name := "X", price := 0 }]).1

/-- C10: deleting by a temp_id that matches no staged row changes nothing:
the whole component state is exactly as before. -/
theorem deleteRow_missing_frame (s : InventoryState) (row : PreviewRow)
    (h : s.previewData.findIdx? (fun r => r.temp_id == row.temp_id) = none) :
    deleteRow s row = s := by
  unfold deleteRow
  rw [h]

def c10Row : PreviewRow := ⟨99, "Ghost", "", 1, 1, some "new", none⟩

def c10State : InventoryState :=
  { previewData := [⟨1, "Bolt", "", 6, 10, some "duplicate", some 3⟩],
    totalRows := 1, hasDuplicates := true, duplicatesCount := 1 }

theorem deleteRow_missing_frame_witness :
    deleteRow c10State c10Row = c10State :=
  deleteRow_missing_frame c10State c10Row (by decide)

end Inventory
